import Mathlib

/-!
Verification of the Vosk NIF boundary layer (`c_src/vosk_nif.c`).

The C file is a thin NIF (native implemented function) bridge between the
BEAM runtime and the native Vosk speech-recognition library.  We give a
shallow embedding: every NIF entry point becomes a Lean function from
Erlang terms to a result together with the list of native engine calls it
performs, and the native library itself is a structure of oracles.  The
resource destructors are modelled as state transformers on the resource
records they mutate.
-/

namespace VoskEx

/-- A non-null native pointer, identified abstractly by a number.  A C
pointer field that may be NULL is modelled as `Option Ptr`, with `none`
standing for NULL. -/
abbrev Ptr := Nat

/-- An IEEE-754 double value, identified by its bit pattern.  The layer
never computes with doubles, it only forwards them, so the representation
is never interpreted. -/
structure DoubleVal where
  bits : Nat
deriving DecidableEq

/-- A single-precision float as it reaches the engine: the C code only
ever produces one by the cast `(float)sample_rate`, so the type records
exactly that narrowing. -/
inductive FloatVal where
  | ofDouble (d : DoubleVal)
deriving DecidableEq

/-- `ModelResource` from vosk_nif.c: a GC-tracked container holding the
(possibly NULL) native model pointer. -/
structure ModelResource where
  model : Option Ptr
deriving DecidableEq

/-- `RecognizerResource` from vosk_nif.c: a GC-tracked container holding
the (possibly NULL) native recognizer pointer. -/
structure RecognizerResource where
  recognizer : Option Ptr
deriving DecidableEq

/-- Erlang terms as the NIF layer observes them: atoms, integers, floats,
binaries (byte sequences), the two registered resource kinds, 2-tuples and
charlists built by enif_make_string. -/
inductive Term where
  | atom (s : String)
  | int (n : Int)
  | double (d : DoubleVal)
  | binary (bs : List Nat)
  | modelRes (r : ModelResource)
  | recognizerRes (r : RecognizerResource)
  | tuple2 (a b : Term)
  | str (bytes : List Nat)
deriving DecidableEq

/-- One call into the native Vosk library, with the arguments as the C
code passes them.  For the two C-string arguments the *whole* scratch
buffer (input bytes plus the written terminator) is recorded. -/
inductive EngineCall where
  | setLogLevel (level : Int)
  | modelNew (buf : List Nat)
  | modelFree (p : Ptr)
  | modelFindWord (m : Option Ptr) (buf : List Nat)
  | recognizerNew (m : Option Ptr) (rate : FloatVal)
  | recognizerFree (p : Ptr)
  | setMaxAlternatives (r : Option Ptr) (n : Int)
  | setWords (r : Option Ptr) (n : Int)
  | setPartialWords (r : Option Ptr) (n : Int)
  | acceptWaveform (r : Option Ptr) (data : List Nat)
  | recognizerResult (r : Option Ptr)
  | recognizerPartialResult (r : Option Ptr)
  | recognizerFinalResult (r : Option Ptr)
  | recognizerReset (r : Option Ptr)
deriving DecidableEq

/-- What a NIF call delivers back to the emulator: a proper term, or the
badarg exception raised by `enif_make_badarg`. -/
inductive NifResult where
  | ok (t : Term)
  | badarg
deriving DecidableEq

/-- The bytes a native callee observes when it reads a buffer as a
C string: everything before the first zero byte. -/
def cstring (buf : List Nat) : List Nat := buf.takeWhile (fun b => b != 0)

/-- The native Vosk library, as oracles.  C-string inputs are received
already truncated at the first NUL (`cstring`), matching what the native
code can observe through a `const char*`.  Constructors may return NULL
(`none`). -/
structure Engine where
  model_new : List Nat → Option Ptr
  model_find_word : Option Ptr → List Nat → Int
  recognizer_new : Option Ptr → FloatVal → Option Ptr
  accept_waveform : Option Ptr → List Nat → Int
  recognizer_result : Option Ptr → List Nat
  recognizer_partial_result : Option Ptr → List Nat
  recognizer_final_result : Option Ptr → List Nat

/-- `enif_get_int`: succeeds exactly on integer terms that fit a C int. -/
def enif_get_int (t : Term) : Option Int :=
  match t with
  | .int n => if -2147483648 ≤ n ∧ n ≤ 2147483647 then some n else none
  | _ => none

/-- `enif_get_double`: succeeds exactly on float terms (no coercion from
integers). -/
def enif_get_double (t : Term) : Option DoubleVal :=
  match t with
  | .double d => some d
  | _ => none

/-- `enif_inspect_binary`: succeeds exactly on binary terms. -/
def enif_inspect_binary (t : Term) : Option (List Nat) :=
  match t with
  | .binary bs => some bs
  | _ => none

/-- `enif_get_resource` with `MODEL_TYPE`: succeeds exactly on terms that
wrap a registered model resource. -/
def getModelResource (t : Term) : Option ModelResource :=
  match t with
  | .modelRes r => some r
  | _ => none

/-- `enif_get_resource` with `RECOGNIZER_TYPE`: succeeds exactly on terms
that wrap a registered recognizer resource. -/
def getRecognizerResource (t : Term) : Option RecognizerResource :=
  match t with
  | .recognizerRes r => some r
  | _ => none

/-- `make_error` from vosk_nif.c: the tuple `{error, Reason}`. -/
def make_error (reason : String) : Term :=
  .tuple2 (.atom "error") (.atom reason)

/-- `model_destructor`: frees the native model if the stored pointer is
non-null and nulls the pointer; otherwise does nothing. -/
def model_destructor (res : ModelResource) : ModelResource × List EngineCall :=
  match res.model with
  | some p => (⟨none⟩, [.modelFree p])
  | none => (res, [])

/-- `recognizer_destructor`: frees the native recognizer if the stored
pointer is non-null and nulls the pointer; otherwise does nothing. -/
def recognizer_destructor (res : RecognizerResource) : RecognizerResource × List EngineCall :=
  match res.recognizer with
  | some p => (⟨none⟩, [.recognizerFree p])
  | none => (res, [])

/-- `set_log_level_nif`. -/
def set_log_level_nif (arg0 : Term) : NifResult × List EngineCall :=
  match enif_get_int arg0 with
  | none => (.badarg, [])
  | some level => (.ok (.atom "ok"), [.setLogLevel level])

/-- `load_model_nif`: inspects the path binary, rejects sizes ≥ 1024,
copies into a NUL-terminated scratch buffer, calls `vosk_model_new`, and
wraps a non-null result in a fresh model resource. -/
def load_model_nif (eng : Engine) (arg0 : Term) : NifResult × List EngineCall :=
  match enif_inspect_binary arg0 with
  | none => (.badarg, [])
  | some path_bin =>
    if 1024 ≤ path_bin.length then (.badarg, [])
    else
      let path := path_bin ++ [0]
      match eng.model_new (cstring path) with
      | none => (.ok (make_error "model_load_failed"), [.modelNew path])
      | some model =>
          (.ok (.tuple2 (.atom "ok") (.modelRes ⟨some model⟩)), [.modelNew path])

/-- `find_word_nif`: resolves a model resource, inspects the word binary,
rejects sizes ≥ 256, NUL-terminates, and returns the engine's integer. -/
def find_word_nif (eng : Engine) (arg0 arg1 : Term) : NifResult × List EngineCall :=
  match getModelResource arg0, enif_inspect_binary arg1 with
  | some model_res, some word_bin =>
    if 256 ≤ word_bin.length then (.badarg, [])
    else
      let word := word_bin ++ [0]
      (.ok (.int (eng.model_find_word model_res.model (cstring word))),
       [.modelFindWord model_res.model word])
  | _, _ => (.badarg, [])

/-- `create_recognizer_nif`: resolves a model resource, reads the sample
rate as a double, narrows it to float, calls `vosk_recognizer_new`, and
wraps a non-null result in a fresh recognizer resource. -/
def create_recognizer_nif (eng : Engine) (arg0 arg1 : Term) : NifResult × List EngineCall :=
  match getModelResource arg0, enif_get_double arg1 with
  | some model_res, some sample_rate =>
    let rate := FloatVal.ofDouble sample_rate
    match eng.recognizer_new model_res.model rate with
    | none => (.ok (make_error "recognizer_creation_failed"), [.recognizerNew model_res.model rate])
    | some rec =>
        (.ok (.tuple2 (.atom "ok") (.recognizerRes ⟨some rec⟩)), [.recognizerNew model_res.model rate])
  | _, _ => (.badarg, [])

/-- `set_max_alternatives_nif`. -/
def set_max_alternatives_nif (arg0 arg1 : Term) : NifResult × List EngineCall :=
  match getRecognizerResource arg0, enif_get_int arg1 with
  | some rec_res, some max_alternatives =>
      (.ok (.atom "ok"), [.setMaxAlternatives rec_res.recognizer max_alternatives])
  | _, _ => (.badarg, [])

/-- `set_words_nif`. -/
def set_words_nif (arg0 arg1 : Term) : NifResult × List EngineCall :=
  match getRecognizerResource arg0, enif_get_int arg1 with
  | some rec_res, some words =>
      (.ok (.atom "ok"), [.setWords rec_res.recognizer words])
  | _, _ => (.badarg, [])

/-- `set_partial_words_nif`. -/
def set_partial_words_nif (arg0 arg1 : Term) : NifResult × List EngineCall :=
  match getRecognizerResource arg0, enif_get_int arg1 with
  | some rec_res, some partial_words =>
      (.ok (.atom "ok"), [.setPartialWords rec_res.recognizer partial_words])
  | _, _ => (.badarg, [])

/-- `accept_waveform_nif`: resolves a recognizer resource, takes a
zero-copy view of the audio binary, and returns the engine status code
unchanged. -/
def accept_waveform_nif (eng : Engine) (arg0 arg1 : Term) : NifResult × List EngineCall :=
  match getRecognizerResource arg0, enif_inspect_binary arg1 with
  | some rec_res, some audio_data =>
      (.ok (.int (eng.accept_waveform rec_res.recognizer audio_data)),
       [.acceptWaveform rec_res.recognizer audio_data])
  | _, _ => (.badarg, [])

/-- `get_result_nif`. -/
def get_result_nif (eng : Engine) (arg0 : Term) : NifResult × List EngineCall :=
  match getRecognizerResource arg0 with
  | none => (.badarg, [])
  | some rec_res =>
      (.ok (.str (eng.recognizer_result rec_res.recognizer)),
       [.recognizerResult rec_res.recognizer])

/-- `get_partial_result_nif`. -/
def get_partial_result_nif (eng : Engine) (arg0 : Term) : NifResult × List EngineCall :=
  match getRecognizerResource arg0 with
  | none => (.badarg, [])
  | some rec_res =>
      (.ok (.str (eng.recognizer_partial_result rec_res.recognizer)),
       [.recognizerPartialResult rec_res.recognizer])

/-- `get_final_result_nif`. -/
def get_final_result_nif (eng : Engine) (arg0 : Term) : NifResult × List EngineCall :=
  match getRecognizerResource arg0 with
  | none => (.badarg, [])
  | some rec_res =>
      (.ok (.str (eng.recognizer_final_result rec_res.recognizer)),
       [.recognizerFinalResult rec_res.recognizer])

/-- `reset_recognizer_nif`. -/
def reset_recognizer_nif (arg0 : Term) : NifResult × List EngineCall :=
  match getRecognizerResource arg0 with
  | none => (.badarg, [])
  | some rec_res =>
      (.ok (.atom "ok"), [.recognizerReset rec_res.recognizer])

/-- The `load` callback: reads the log level from load_info, defaulting to
-1 (silent) when it is not a usable integer, forwards it to
`vosk_set_log_level`, then registers the two resource types; returns 0 on
success and 1 if either registration failed. -/
def load (model_type_ok recognizer_type_ok : Bool) (load_info : Term) : Int × List EngineCall :=
  let log_level : Int :=
    match enif_get_int load_info with
    | some l => l
    | none => -1
  (if model_type_ok && recognizer_type_ok then 0 else 1, [.setLogLevel log_level])

/-- Value of `ERL_NIF_DIRTY_JOB_CPU_BOUND` in erl_nif.h: the flag that
routes a NIF to the dirty CPU scheduler pool. -/
def ERL_NIF_DIRTY_JOB_CPU_BOUND : Nat := 1

/-- One row of the `ErlNifFunc` export table. -/
structure NifFunc where
  name : String
  arity : Nat
  flags : Nat
deriving DecidableEq

/-- The `nif_funcs` export table from vosk_nif.c, rows in source order. -/
def nif_funcs : List NifFunc :=
  [⟨"set_log_level", 1, 0⟩,
   ⟨"load_model", 1, 0⟩,
   ⟨"find_word", 2, 0⟩,
   ⟨"create_recognizer", 2, 0⟩,
   ⟨"set_max_alternatives", 2, 0⟩,
   ⟨"set_words", 2, 0⟩,
   ⟨"set_partial_words", 2, 0⟩,
   ⟨"accept_waveform", 2, ERL_NIF_DIRTY_JOB_CPU_BOUND⟩,
   ⟨"get_result", 1, 0⟩,
   ⟨"get_partial_result", 1, 0⟩,
   ⟨"get_final_result", 1, 0⟩,
   ⟨"reset_recognizer", 1, 0⟩]

/-- The twelve exported operations, named as in the export table. -/
inductive OpName where
  | set_log_level
  | load_model
  | find_word
  | create_recognizer
  | set_max_alternatives
  | set_words
  | set_partial_words
  | accept_waveform
  | get_result
  | get_partial_result
  | get_final_result
  | reset_recognizer
deriving DecidableEq

/-- Dispatch of a call to the exported NIF with the given argument list;
an argument list that does not match the exported arity never reaches the
C function (the emulator fails the call), modelled as badarg with no
native activity. -/
def runNif (eng : Engine) (op : OpName) (args : List Term) : NifResult × List EngineCall :=
  match op, args with
  | .set_log_level, [a] => set_log_level_nif a
  | .load_model, [a] => load_model_nif eng a
  | .find_word, [a, b] => find_word_nif eng a b
  | .create_recognizer, [a, b] => create_recognizer_nif eng a b
  | .set_max_alternatives, [a, b] => set_max_alternatives_nif a b
  | .set_words, [a, b] => set_words_nif a b
  | .set_partial_words, [a, b] => set_partial_words_nif a b
  | .accept_waveform, [a, b] => accept_waveform_nif eng a b
  | .get_result, [a] => get_result_nif eng a
  | .get_partial_result, [a] => get_partial_result_nif eng a
  | .get_final_result, [a] => get_final_result_nif eng a
  | .reset_recognizer, [a] => reset_recognizer_nif a
  | _, _ => (.badarg, [])

/-- The validity condition each entry point checks before any native
dispatch: correct arity, correct term types, correct resource kind, and
buffer lengths under their bounds. -/
def validArgs (op : OpName) (args : List Term) : Bool :=
  match op, args with
  | .set_log_level, [a] => (enif_get_int a).isSome
  | .load_model, [a] =>
      match enif_inspect_binary a with
      | some bs => decide (bs.length < 1024)
      | none => false
  | .find_word, [a, b] =>
      (getModelResource a).isSome &&
      (match enif_inspect_binary b with
       | some bs => decide (bs.length < 256)
       | none => false)
  | .create_recognizer, [a, b] => (getModelResource a).isSome && (enif_get_double b).isSome
  | .set_max_alternatives, [a, b] => (getRecognizerResource a).isSome && (enif_get_int b).isSome
  | .set_words, [a, b] => (getRecognizerResource a).isSome && (enif_get_int b).isSome
  | .set_partial_words, [a, b] => (getRecognizerResource a).isSome && (enif_get_int b).isSome
  | .accept_waveform, [a, b] => (getRecognizerResource a).isSome && (enif_inspect_binary b).isSome
  | .get_result, [a] => (getRecognizerResource a).isSome
  | .get_partial_result, [a] => (getRecognizerResource a).isSome
  | .get_final_result, [a] => (getRecognizerResource a).isSome
  | .reset_recognizer, [a] => (getRecognizerResource a).isSome
  | _, _ => false

/-- The operations that resolve their first argument as a recognizer
resource. -/
def expectsRecognizer : OpName → Bool
  | .set_max_alternatives | .set_words | .set_partial_words | .accept_waveform
  | .get_result | .get_partial_result | .get_final_result | .reset_recognizer => true
  | _ => false

/-- The operations that resolve their first argument as a model
resource. -/
def expectsModel : OpName → Bool
  | .find_word | .create_recognizer => true
  | _ => false

/-- An engine whose constructors always succeed, for concrete runs. -/
def testEngine : Engine where
  model_new := fun cs => some (cs.length + 1)
  model_find_word := fun _ w => Int.ofNat w.length
  recognizer_new := fun _ _ => some 42
  accept_waveform := fun _ audio => Int.ofNat audio.length - 2
  recognizer_result := fun _ => [123, 125]
  recognizer_partial_result := fun _ => [123, 125]
  recognizer_final_result := fun _ => [123, 125]

/-- An engine whose constructors always return NULL, for concrete runs of
the failure paths. -/
def nullEngine : Engine where
  model_new := fun _ => none
  model_find_word := fun _ _ => -1
  recognizer_new := fun _ _ => none
  accept_waveform := fun _ _ => -1
  recognizer_result := fun _ => []
  recognizer_partial_result := fun _ => []
  recognizer_final_result := fun _ => []

/-- Appending the written NUL terminator to a buffer does not change the
bytes a C-string reader observes: it still reads up to the first zero byte
of the original buffer. -/
lemma cstring_append_nul (l : List Nat) :
    cstring (l ++ [0]) = l.takeWhile (fun b => b != 0) := by
  induction l with
  | nil => simp [cstring]
  | cons a t ih =>
    simp only [cstring, List.cons_append, List.takeWhile_cons] at *
    cases h : (a != 0) <;> simp [h, ih]

/-- C1: for every model and recognizer resource, the destructor is
idempotent: an invocation that sees a non-null pointer frees it exactly
once and nulls the stored pointer; after any invocation the stored pointer
is null, and a second invocation changes nothing and performs no native
call. -/
theorem destructor_idempotent (m : ModelResource) (r : RecognizerResource) :
    (∀ p, m.model = some p →
      model_destructor m = (⟨none⟩, [EngineCall.modelFree p])) ∧
    (model_destructor m).1.model = none ∧
    model_destructor (model_destructor m).1 = ((model_destructor m).1, []) ∧
    (∀ p, r.recognizer = some p →
      recognizer_destructor r = (⟨none⟩, [EngineCall.recognizerFree p])) ∧
    (recognizer_destructor r).1.recognizer = none ∧
    recognizer_destructor (recognizer_destructor r).1 = ((recognizer_destructor r).1, []) := by
  obtain ⟨mp⟩ := m
  obtain ⟨rp⟩ := r
  cases mp <;> cases rp <;>
    simp [model_destructor, recognizer_destructor]

/-- Witness for C1 at concrete resources holding pointers 5 and 7. -/
theorem destructor_idempotent_witness :
    model_destructor ⟨some 5⟩ = (⟨none⟩, [EngineCall.modelFree 5]) ∧
    recognizer_destructor ⟨some 7⟩ = (⟨none⟩, [EngineCall.recognizerFree 7]) ∧
    model_destructor (model_destructor ⟨some 5⟩).1 = ((model_destructor ⟨some 5⟩).1, []) :=
  ⟨(destructor_idempotent ⟨some 5⟩ ⟨some 7⟩).1 5 rfl,
   (destructor_idempotent ⟨some 5⟩ ⟨some 7⟩).2.2.2.1 7 rfl,
   (destructor_idempotent ⟨some 5⟩ ⟨some 7⟩).2.2.1⟩

/-- C6: on a recognizer resource and an audio binary, acceptWaveform
returns exactly the engine's status code for those bytes, uninterpreted,
and makes exactly that one native call. -/
theorem accept_waveform_passthrough (eng : Engine) (r : RecognizerResource)
    (audio : List Nat) :
    accept_waveform_nif eng (.recognizerRes r) (.binary audio) =
      (.ok (.int (eng.accept_waveform r.recognizer audio)),
       [.acceptWaveform r.recognizer audio]) := by
  simp [accept_waveform_nif, getRecognizerResource, enif_inspect_binary]

/-- C7: in the export table, acceptWaveform is the unique operation
carrying the dirty CPU-bound scheduling flag: its row has flag
`ERL_NIF_DIRTY_JOB_CPU_BOUND`, every other of the 12 rows has flag 0 and
so executes synchronously on the calling scheduler. -/
theorem accept_waveform_only_dirty :
    nif_funcs.length = 12 ∧
    nif_funcs.get? 7 = some ⟨"accept_waveform", 2, ERL_NIF_DIRTY_JOB_CPU_BOUND⟩ ∧
    (nif_funcs.all fun f =>
      (decide (f.flags = ERL_NIF_DIRTY_JOB_CPU_BOUND) ==
        decide (f.name = "accept_waveform")) &&
      (decide (f.flags = 0) == decide (f.name ≠ "accept_waveform"))) = true := by
  decide

/-- C2: loadModel rejects every path binary of length ≥ 1024 with badarg
and no native call; findWord rejects every word binary of length ≥ 256
likewise; strictly under the bound each check passes and the native call
is performed. -/
theorem buffer_bounds_enforced (eng : Engine) (m : ModelResource)
    (bs ws : List Nat) :
    (1024 ≤ bs.length → load_model_nif eng (.binary bs) = (.badarg, [])) ∧
    (256 ≤ ws.length → find_word_nif eng (.modelRes m) (.binary ws) = (.badarg, [])) ∧
    (bs.length < 1024 →
      (load_model_nif eng (.binary bs)).2 = [.modelNew (bs ++ [0])]) ∧
    (ws.length < 256 →
      (find_word_nif eng (.modelRes m) (.binary ws)).2 = [.modelFindWord m.model (ws ++ [0])]) := by
  refine ⟨fun h => ?_, fun h => ?_, fun h => ?_, fun h => ?_⟩
  · simp [load_model_nif, enif_inspect_binary, h]
  · simp [find_word_nif, getModelResource, enif_inspect_binary, h]
  · have h' : ¬ 1024 ≤ bs.length := by omega
    simp [load_model_nif, enif_inspect_binary, h']
    rcases eng.model_new (cstring (bs ++ [0])) with _ | p <;> simp
  · have h' : ¬ 256 ≤ ws.length := by omega
    simp [find_word_nif, getModelResource, enif_inspect_binary, h']

/-- Witness for C2: a 1024-byte path is rejected without a native call; a
2-byte path passes the check and reaches vosk_model_new. -/
theorem buffer_bounds_enforced_witness :
    load_model_nif testEngine (.binary (List.replicate 1024 97)) = (.badarg, []) ∧
    find_word_nif testEngine (.modelRes ⟨some 1⟩) (.binary (List.replicate 256 97)) = (.badarg, []) ∧
    (load_model_nif testEngine (.binary [104, 105])).2 = [.modelNew [104, 105, 0]] :=
  ⟨(buffer_bounds_enforced testEngine ⟨some 1⟩ (List.replicate 1024 97) []).1
     (by rw [List.length_replicate]),
   (buffer_bounds_enforced testEngine ⟨some 1⟩ [] (List.replicate 256 97)).2.1
     (by rw [List.length_replicate]),
   (buffer_bounds_enforced testEngine ⟨some 1⟩ [104, 105] []).2.2.1 (by simp)⟩

/-- C4: when the native constructor returns NULL, loadModel returns the
tagged tuple {error, model_load_failed} and createRecognizer returns
{error, recognizer_creation_failed}; when it returns non-NULL, each
returns {ok, Handle} with a fresh resource owning that pointer. -/
theorem null_constructor_yields_error (eng : Engine) (m : ModelResource)
    (bs : List Nat) (d : DoubleVal) :
    (bs.length < 1024 → eng.model_new (cstring (bs ++ [0])) = none →
      (load_model_nif eng (.binary bs)).1 = .ok (make_error "model_load_failed")) ∧
    (∀ p, bs.length < 1024 → eng.model_new (cstring (bs ++ [0])) = some p →
      (load_model_nif eng (.binary bs)).1 =
        .ok (.tuple2 (.atom "ok") (.modelRes ⟨some p⟩))) ∧
    (eng.recognizer_new m.model (.ofDouble d) = none →
      (create_recognizer_nif eng (.modelRes m) (.double d)).1 =
        .ok (make_error "recognizer_creation_failed")) ∧
    (∀ q, eng.recognizer_new m.model (.ofDouble d) = some q →
      (create_recognizer_nif eng (.modelRes m) (.double d)).1 =
        .ok (.tuple2 (.atom "ok") (.recognizerRes ⟨some q⟩))) := by
  refine ⟨fun h he => ?_, fun p h he => ?_, fun he => ?_, fun q he => ?_⟩
  · have h' : ¬ 1024 ≤ bs.length := by omega
    simp [load_model_nif, enif_inspect_binary, h', he]
  · have h' : ¬ 1024 ≤ bs.length := by omega
    simp [load_model_nif, enif_inspect_binary, h', he]
  · simp [create_recognizer_nif, getModelResource, enif_get_double, he]
  · simp [create_recognizer_nif, getModelResource, enif_get_double, he]

/-- Witness for C4: the always-NULL engine produces the two tagged error
tuples; the always-succeeding engine produces {ok, Handle}. -/
theorem null_constructor_yields_error_witness :
    (load_model_nif nullEngine (.binary [104])).1 = .ok (make_error "model_load_failed") ∧
    (create_recognizer_nif nullEngine (.modelRes ⟨some 1⟩) (.double ⟨0⟩)).1 =
      .ok (make_error "recognizer_creation_failed") ∧
    (load_model_nif testEngine (.binary [104])).1 =
      .ok (.tuple2 (.atom "ok") (.modelRes ⟨some 2⟩)) ∧
    (create_recognizer_nif testEngine (.modelRes ⟨some 1⟩) (.double ⟨0⟩)).1 =
      .ok (.tuple2 (.atom "ok") (.recognizerRes ⟨some 42⟩)) :=
  ⟨(null_constructor_yields_error nullEngine ⟨some 1⟩ [104] ⟨0⟩).1 (by decide) rfl,
   (null_constructor_yields_error nullEngine ⟨some 1⟩ [104] ⟨0⟩).2.2.1 rfl,
   (null_constructor_yields_error testEngine ⟨some 1⟩ [104] ⟨0⟩).2.1 2 (by decide) (by decide),
   (null_constructor_yields_error testEngine ⟨some 1⟩ [104] ⟨0⟩).2.2.2 42 rfl⟩

/-- C8: at module load, a load_info that is not a usable integer makes the
layer set the native log level to -1 (fully silent); a valid integer is
forwarded to vosk_set_log_level unchanged. -/
theorem load_log_level_default (ok1 ok2 : Bool) (t : Term) :
    (enif_get_int t = none → (load ok1 ok2 t).2 = [.setLogLevel (-1)]) ∧
    (∀ n, enif_get_int t = some n → (load ok1 ok2 t).2 = [.setLogLevel n]) := by
  refine ⟨fun h => ?_, fun n h => ?_⟩ <;> simp [load, h]

/-- Witness for C8: an atom load_info falls back to silent level -1, and
integer load_info 30 is forwarded as 30. -/
theorem load_log_level_default_witness :
    (load true true (.atom "undefined")).2 = [.setLogLevel (-1)] ∧
    (load true true (.int 30)).2 = [.setLogLevel 30] :=
  ⟨(load_log_level_default true true (.atom "undefined")).1 rfl,
   (load_log_level_default true true (.int 30)).2 30 (by decide)⟩

/-- C9: for accepted inputs the scratch buffer passed to the native call
is exactly the input bytes followed by one zero terminator; acceptance
depends only on length (an interior zero byte is still accepted), and the
native callee observes exactly the prefix before the first zero byte. -/
theorem cstring_marshaling (eng : Engine) (m : ModelResource)
    (bs ws : List Nat) :
    (bs.length < 1024 →
      (load_model_nif eng (.binary bs)).2 = [.modelNew (bs ++ [0])] ∧
      (load_model_nif eng (.binary bs)).1 ≠ .badarg ∧
      (load_model_nif eng (.binary bs)).1 =
        (match eng.model_new (bs.takeWhile (fun b => b != 0)) with
         | none => .ok (make_error "model_load_failed")
         | some p => .ok (.tuple2 (.atom "ok") (.modelRes ⟨some p⟩)))) ∧
    (ws.length < 256 →
      (find_word_nif eng (.modelRes m) (.binary ws)).2 = [.modelFindWord m.model (ws ++ [0])] ∧
      (find_word_nif eng (.modelRes m) (.binary ws)).1 =
        .ok (.int (eng.model_find_word m.model (ws.takeWhile (fun b => b != 0))))) ∧
    cstring (bs ++ [0]) = bs.takeWhile (fun b => b != 0) := by
  refine ⟨fun h => ?_, fun h => ?_, cstring_append_nul bs⟩
  · have h' : ¬ 1024 ≤ bs.length := by omega
    simp [load_model_nif, enif_inspect_binary, h', cstring_append_nul]
    rcases eng.model_new (bs.takeWhile (fun b => b != 0)) with _ | p <;> simp
  · have h' : ¬ 256 ≤ ws.length := by omega
    simp [find_word_nif, getModelResource, enif_inspect_binary, h', cstring_append_nul]

/-- Witness for C9: the input [104, 0, 105], which contains an interior
zero byte, is accepted; the buffer forwarded is [104, 0, 105, 0] and the
engine observes only the prefix [104]. -/
theorem cstring_marshaling_witness :
    (load_model_nif testEngine (.binary [104, 0, 105])).2 = [.modelNew [104, 0, 105, 0]] ∧
    (load_model_nif testEngine (.binary [104, 0, 105])).1 ≠ .badarg ∧
    cstring ([104, 0, 105] ++ [0]) = [104] :=
  ⟨((cstring_marshaling testEngine ⟨some 1⟩ [104, 0, 105] []).1 (by decide)).1,
   ((cstring_marshaling testEngine ⟨some 1⟩ [104, 0, 105] []).1 (by decide)).2.1,
   (cstring_marshaling testEngine ⟨some 1⟩ [104, 0, 105] []).2.2.trans (by decide)⟩

/-- C10: createRecognizer requires a float term for the sample rate: an
integer term (such as 16000) or any other non-float term is rejected with
badarg and no native call; a float term reaches the engine as the
single-precision narrowing of the supplied double. -/
theorem sample_rate_must_be_float (eng : Engine) (m : ModelResource)
    (n : Int) (t : Term) (d : DoubleVal) :
    create_recognizer_nif eng (.modelRes m) (.int n) = (.badarg, []) ∧
    (enif_get_double t = none →
      create_recognizer_nif eng (.modelRes m) t = (.badarg, [])) ∧
    (create_recognizer_nif eng (.modelRes m) (.double d)).2 =
      [.recognizerNew m.model (.ofDouble d)] := by
  refine ⟨?_, fun h => ?_, ?_⟩
  · simp [create_recognizer_nif, getModelResource, enif_get_double]
  · cases t <;> simp_all [create_recognizer_nif, getModelResource, enif_get_double]
  · simp [create_recognizer_nif, getModelResource, enif_get_double]
    rcases eng.recognizer_new m.model (.ofDouble d) with _ | q <;> simp

/-- Witness for C10: the integer 16000 is rejected although numerically a
valid rate; an atom is rejected; a float term produces the native call
with the narrowed rate. -/
theorem sample_rate_must_be_float_witness :
    create_recognizer_nif testEngine (.modelRes ⟨some 1⟩) (.int 16000) = (.badarg, []) ∧
    create_recognizer_nif testEngine (.modelRes ⟨some 1⟩) (.atom "x") = (.badarg, []) ∧
    (create_recognizer_nif testEngine (.modelRes ⟨some 1⟩) (.double ⟨3⟩)).2 =
      [.recognizerNew (some 1) (.ofDouble ⟨3⟩)] :=
  ⟨(sample_rate_must_be_float testEngine ⟨some 1⟩ 16000 (.atom "x") ⟨3⟩).1,
   (sample_rate_must_be_float testEngine ⟨some 1⟩ 16000 (.atom "x") ⟨3⟩).2.1 rfl,
   (sample_rate_must_be_float testEngine ⟨some 1⟩ 16000 (.atom "x") ⟨3⟩).2.2⟩

/-- C3: every operation that resolves a recognizer handle rejects a model
handle in that position with badarg, before any native call, and every
operation that resolves a model handle likewise rejects a recognizer
handle; this rejection is a distinct value from every tagged domain-error
tuple. -/
theorem handle_kind_confusion (eng : Engine) (op : OpName) (args : List Term)
    (m : ModelResource) (r : RecognizerResource) :
    (expectsRecognizer op = true →
      runNif eng op (Term.modelRes m :: args) = (.badarg, [])) ∧
    (expectsModel op = true →
      runNif eng op (Term.recognizerRes r :: args) = (.badarg, [])) ∧
    (∀ reason, NifResult.badarg ≠ NifResult.ok (make_error reason)) := by
  refine ⟨fun hop => ?_, fun hop => ?_, fun reason => by simp⟩
  · cases op <;> simp only [expectsRecognizer, Bool.false_eq_true] at hop <;>
      rcases args with _ | ⟨b, _ | ⟨c, rest⟩⟩ <;>
        simp [runNif, set_max_alternatives_nif, set_words_nif, set_partial_words_nif,
              accept_waveform_nif, get_result_nif, get_partial_result_nif,
              get_final_result_nif, reset_recognizer_nif, getRecognizerResource]
  · cases op <;> simp only [expectsModel, Bool.false_eq_true] at hop <;>
      rcases args with _ | ⟨b, _ | ⟨c, rest⟩⟩ <;>
        simp [runNif, find_word_nif, create_recognizer_nif, getModelResource]

/-- Witness for C3: resetting with a model handle and finding a word with
a recognizer handle are both rejected without native activity. -/
theorem handle_kind_confusion_witness :
    runNif testEngine .reset_recognizer [Term.modelRes ⟨some 3⟩] = (.badarg, []) ∧
    runNif testEngine .find_word [Term.recognizerRes ⟨some 4⟩, Term.binary [97]] = (.badarg, []) :=
  ⟨(handle_kind_confusion testEngine .reset_recognizer [] ⟨some 3⟩ ⟨some 4⟩).1 rfl,
   (handle_kind_confusion testEngine .find_word [Term.binary [97]] ⟨some 3⟩ ⟨some 4⟩).2.1 rfl⟩

/-- Gate lemma for set_log_level: validity coincides with not raising
badarg, and an invalid call produces badarg with no native activity. -/
lemma set_log_level_gate (a : Term) :
    (validArgs .set_log_level [a] = true → (set_log_level_nif a).1 ≠ .badarg) ∧
    (validArgs .set_log_level [a] = false → set_log_level_nif a = (.badarg, [])) := by
  cases a <;> simp [validArgs, set_log_level_nif, enif_get_int]
  next n =>
    by_cases hc : -2147483648 ≤ n ∧ n ≤ 2147483647 <;> simp [hc]
    omega

/-- Gate lemma for load_model. -/
lemma load_model_gate (eng : Engine) (a : Term) :
    (validArgs .load_model [a] = true → (load_model_nif eng a).1 ≠ .badarg) ∧
    (validArgs .load_model [a] = false → load_model_nif eng a = (.badarg, [])) := by
  cases a <;> simp [validArgs, load_model_nif, enif_inspect_binary]
  next bs =>
    by_cases hb : 1024 ≤ bs.length
    · have h' : ¬ bs.length < 1024 := by omega
      simp [hb, h']
    · have h' : bs.length < 1024 := by omega
      simp [hb, h']
      rcases eng.model_new (cstring (bs ++ [0])) with _ | p <;> simp

/-- Gate lemma for find_word. -/
lemma find_word_gate (eng : Engine) (a b : Term) :
    (validArgs .find_word [a, b] = true → (find_word_nif eng a b).1 ≠ .badarg) ∧
    (validArgs .find_word [a, b] = false → find_word_nif eng a b = (.badarg, [])) := by
  cases a <;> cases b <;>
    simp [validArgs, find_word_nif, getModelResource, enif_inspect_binary]
  next m bs =>
    by_cases hb : 256 ≤ bs.length
    · have h' : ¬ bs.length < 256 := by omega
      simp [hb, h']
    · have h' : bs.length < 256 := by omega
      simp [hb, h']

/-- Gate lemma for create_recognizer. -/
lemma create_recognizer_gate (eng : Engine) (a b : Term) :
    (validArgs .create_recognizer [a, b] = true → (create_recognizer_nif eng a b).1 ≠ .badarg) ∧
    (validArgs .create_recognizer [a, b] = false → create_recognizer_nif eng a b = (.badarg, [])) := by
  cases a <;> cases b <;>
    simp [validArgs, create_recognizer_nif, getModelResource, enif_get_double]
  next m d =>
    rcases eng.recognizer_new m.model (.ofDouble d) with _ | q <;> simp

/-- Gate lemma for set_max_alternatives. -/
lemma set_max_alternatives_gate (a b : Term) :
    (validArgs .set_max_alternatives [a, b] = true → (set_max_alternatives_nif a b).1 ≠ .badarg) ∧
    (validArgs .set_max_alternatives [a, b] = false → set_max_alternatives_nif a b = (.badarg, [])) := by
  cases a <;> cases b <;>
    simp [validArgs, set_max_alternatives_nif, getRecognizerResource, enif_get_int]
  next r n =>
    by_cases hc : -2147483648 ≤ n ∧ n ≤ 2147483647 <;> simp [hc]
    omega

/-- Gate lemma for set_words. -/
lemma set_words_gate (a b : Term) :
    (validArgs .set_words [a, b] = true → (set_words_nif a b).1 ≠ .badarg) ∧
    (validArgs .set_words [a, b] = false → set_words_nif a b = (.badarg, [])) := by
  cases a <;> cases b <;>
    simp [validArgs, set_words_nif, getRecognizerResource, enif_get_int]
  next r n =>
    by_cases hc : -2147483648 ≤ n ∧ n ≤ 2147483647 <;> simp [hc]
    omega

/-- Gate lemma for set_partial_words. -/
lemma set_partial_words_gate (a b : Term) :
    (validArgs .set_partial_words [a, b] = true → (set_partial_words_nif a b).1 ≠ .badarg) ∧
    (validArgs .set_partial_words [a, b] = false → set_partial_words_nif a b = (.badarg, [])) := by
  cases a <;> cases b <;>
    simp [validArgs, set_partial_words_nif, getRecognizerResource, enif_get_int]
  next r n =>
    by_cases hc : -2147483648 ≤ n ∧ n ≤ 2147483647 <;> simp [hc]
    omega

/-- Gate lemma for accept_waveform. -/
lemma accept_waveform_gate (eng : Engine) (a b : Term) :
    (validArgs .accept_waveform [a, b] = true → (accept_waveform_nif eng a b).1 ≠ .badarg) ∧
    (validArgs .accept_waveform [a, b] = false → accept_waveform_nif eng a b = (.badarg, [])) := by
  cases a <;> cases b <;>
    simp [validArgs, accept_waveform_nif, getRecognizerResource, enif_inspect_binary]

/-- Gate lemma for get_result. -/
lemma get_result_gate (eng : Engine) (a : Term) :
    (validArgs .get_result [a] = true → (get_result_nif eng a).1 ≠ .badarg) ∧
    (validArgs .get_result [a] = false → get_result_nif eng a = (.badarg, [])) := by
  cases a <;> simp [validArgs, get_result_nif, getRecognizerResource]

/-- Gate lemma for get_partial_result. -/
lemma get_partial_result_gate (eng : Engine) (a : Term) :
    (validArgs .get_partial_result [a] = true → (get_partial_result_nif eng a).1 ≠ .badarg) ∧
    (validArgs .get_partial_result [a] = false → get_partial_result_nif eng a = (.badarg, [])) := by
  cases a <;> simp [validArgs, get_partial_result_nif, getRecognizerResource]

/-- Gate lemma for get_final_result. -/
lemma get_final_result_gate (eng : Engine) (a : Term) :
    (validArgs .get_final_result [a] = true → (get_final_result_nif eng a).1 ≠ .badarg) ∧
    (validArgs .get_final_result [a] = false → get_final_result_nif eng a = (.badarg, [])) := by
  cases a <;> simp [validArgs, get_final_result_nif, getRecognizerResource]

/-- Gate lemma for reset_recognizer. -/
lemma reset_recognizer_gate (a : Term) :
    (validArgs .reset_recognizer [a] = true → (reset_recognizer_nif a).1 ≠ .badarg) ∧
    (validArgs .reset_recognizer [a] = false → reset_recognizer_nif a = (.badarg, [])) := by
  cases a <;> simp [validArgs, reset_recognizer_nif, getRecognizerResource]

/-- C5: every one of the 12 exported operations returns a value on every
input — either a proper term or the badarg signal, never an abort — and
native dispatch is gated on validation: a call whose arguments fail the
boundary checks (type, handle kind, buffer bound, arity) returns badarg
having performed no native call, while a call that passes them never
raises badarg. -/
theorem nifs_total_and_validated (eng : Engine) (op : OpName) (args : List Term) :
    ((runNif eng op args).1 = .badarg ∨ ∃ t, (runNif eng op args).1 = .ok t) ∧
    (validArgs op args = true → (runNif eng op args).1 ≠ .badarg) ∧
    (validArgs op args = false → runNif eng op args = (.badarg, [])) := by
  refine ⟨?_, fun hv => ?_, fun hv => ?_⟩
  · cases hr : (runNif eng op args).1 with
    | ok t => exact Or.inr ⟨t, rfl⟩
    | badarg => exact Or.inl rfl
  · cases op <;> rcases args with _ | ⟨a, _ | ⟨b, _ | ⟨c, rest⟩⟩⟩ <;>
      first
        | exact (set_log_level_gate a).1 hv
        | exact (load_model_gate eng a).1 hv
        | exact (find_word_gate eng a b).1 hv
        | exact (create_recognizer_gate eng a b).1 hv
        | exact (set_max_alternatives_gate a b).1 hv
        | exact (set_words_gate a b).1 hv
        | exact (set_partial_words_gate a b).1 hv
        | exact (accept_waveform_gate eng a b).1 hv
        | exact (get_result_gate eng a).1 hv
        | exact (get_partial_result_gate eng a).1 hv
        | exact (get_final_result_gate eng a).1 hv
        | exact (reset_recognizer_gate a).1 hv
        | exact absurd hv (by simp [validArgs])
  · cases op <;> rcases args with _ | ⟨a, _ | ⟨b, _ | ⟨c, rest⟩⟩⟩ <;>
      first
        | rfl
        | exact (set_log_level_gate a).2 hv
        | exact (load_model_gate eng a).2 hv
        | exact (find_word_gate eng a b).2 hv
        | exact (create_recognizer_gate eng a b).2 hv
        | exact (set_max_alternatives_gate a b).2 hv
        | exact (set_words_gate a b).2 hv
        | exact (set_partial_words_gate a b).2 hv
        | exact (accept_waveform_gate eng a b).2 hv
        | exact (get_result_gate eng a).2 hv
        | exact (get_partial_result_gate eng a).2 hv
        | exact (get_final_result_gate eng a).2 hv
        | exact (reset_recognizer_gate a).2 hv

/-- Witness for C5: a valid findWord call does not raise badarg, and an
invalid acceptWaveform call (atom instead of handle) returns badarg with
an empty native trace. -/
theorem nifs_total_and_validated_witness :
    (runNif testEngine .find_word [Term.modelRes ⟨some 1⟩, Term.binary [97]]).1 ≠ .badarg ∧
    runNif testEngine .accept_waveform [Term.atom "x", Term.binary [1, 2]] = (.badarg, []) :=
  ⟨(nifs_total_and_validated testEngine .find_word
      [Term.modelRes ⟨some 1⟩, Term.binary [97]]).2.1 (by decide),
   (nifs_total_and_validated testEngine .accept_waveform
      [Term.atom "x", Term.binary [1, 2]]).2.2 rfl⟩

end VoskEx
